import Mathlib

/-!
Shallow embedding of the stochastic search loop of `MySolverImpl._solve`
(src/my_solver.py), the "YOLOPlanner" engine.

The python loop, per iteration, draws `random.random()`; if the draw is below
`restart_probability` it resets the plan to empty and continues.  Otherwise it
appends a randomly chosen action, validates the extended plan, returns a
`SOLVED_SATISFICING` result on success (after lifting with
`map_back_action_instance` and an `assert`-guarded re-validation against the
original problem), pops the last action when the first log message lacks the
substring "Goals", then increments `counter` and returns a `TIMEOUT` result
with no plan when `max_tries` is set and reached.

Randomness is modelled by an explicit input per iteration: the uniform draw
`r` of `random.random()` and an arbitrary index `choice` for `random.choice`.
The possibly endless `while True` loop is modelled by running it on a finite
list of such iteration inputs.
-/

namespace YoloPlanner

/-- Grounded actions are opaque to the search: only identity matters. -/
abbrev GroundedAction := Nat

/-- Actions of the original (un-grounded) problem vocabulary. -/
abbrev LiftedAction := Nat

/-- One entry of `res.log_messages` of a validation result. -/
structure LogMessage where
  message : String
deriving DecidableEq

/-- Result of `pv.validate`: its truthiness (`if res:`) and its log messages. -/
structure ValidationResult where
  valid : Bool
  log_messages : List LogMessage
deriving DecidableEq

/-- The two `PlanGenerationResultStatus` values the solver produces. -/
inductive Status where
  | SOLVED_SATISFICING
  | TIMEOUT
deriving DecidableEq

/-- `up.engines.PlanGenerationResult(status, plan, engine_name)`. -/
structure PlanGenerationResult where
  status : Status
  plan : Option (List LiftedAction)
  engine_name : String
deriving DecidableEq

/-- The options read in `MySolverImpl.__init__`: `max_tries` (default `None`)
and `restart_probability` (default 0.00001), modelled as a rational. -/
structure SolverOptions where
  max_tries : Option Nat
  restart_probability : ℚ

/-- The option values `__init__` stores when the caller supplies none. -/
def defaultOptions : SolverOptions :=
  { max_tries := none, restart_probability := mkRat 1 100000 }

/-- The external collaborators of one `_solve` call: the grounded action list,
the validator on the grounded problem, the lift-back map of the grounding
result, and the validator on the original problem (used by the `assert`). -/
structure ProblemEnv where
  actions : List GroundedAction
  validate : List GroundedAction → ValidationResult
  map_back : GroundedAction → LiftedAction
  validate_original : List LiftedAction → Bool

/-- The loop's mutable state: the candidate `plan` and the try `counter`. -/
structure LoopState where
  plan : List GroundedAction
  counter : Nat
deriving DecidableEq

/-- The randomness one iteration consumes: the value of `random.random()` and
an index determining which action `random.choice` picks. -/
structure IterInput where
  r : ℚ
  choice : Nat

/-- Python exceptions the loop body can raise: `IndexError` from
`random.choice` on an empty list or from `log_messages[0]` on an empty list,
and `AssertionError` from the sanity re-validation. -/
inductive PyError where
  | indexError
  | assertionError
deriving DecidableEq

/-- Outcome of one loop iteration: continue with a new state, return a
result, or raise an exception. -/
inductive StepResult where
  | next (s : LoopState)
  | ret (res : PlanGenerationResult)
  | raised (e : PyError)
deriving DecidableEq

/-- Does `hay` start with `need`? (helper for python's substring test) -/
def beginsWith : List Char → List Char → Bool
  | [], _ => true
  | _ :: _, [] => false
  | c :: cs, d :: ds => c == d && beginsWith cs ds

/-- Substring containment on character lists. -/
def containsSub (need : List Char) : List Char → Bool
  | [] => beginsWith need []
  | c :: cs => beginsWith need (c :: cs) || containsSub need cs

/-- Python's `'Goals' in einfo`. -/
def containsGoals (einfo : String) : Bool :=
  containsSub "Goals".data einfo.data

/-- The `TIMEOUT` result built at the end of the loop body:
`PlanGenerationResult(PlanGenerationResultStatus.TIMEOUT, None, self.name)`. -/
def timeoutResult : PlanGenerationResult :=
  { status := .TIMEOUT, plan := none, engine_name := "YOLOPlanner" }

/-- The action `a = random.choice(actions)` picks on a non-empty list, for a
given random index (`choice` is reduced modulo the pool size). -/
def chosen (env : ProblemEnv) (inp : IterInput) : GroundedAction :=
  env.actions.getD (inp.choice % env.actions.length) 0

/-- The candidate after `plan.actions.append(ai)`: the previous plan with the
chosen action appended. -/
def extendedPlan (env : ProblemEnv) (inp : IterInput) (s : LoopState) :
    List GroundedAction :=
  s.plan ++ [chosen env inp]

/-- The non-restart (else) branch of the loop body: choose an action, append
it, validate; on success lift the plan, assert the re-validation and return
`SOLVED_SATISFICING`; on failure pop the last action when the first log
message lacks "Goals", then increment the counter and return `TIMEOUT` when
`max_tries` is set and reached.  The second component counts the calls made
to the grounded-problem validator in this iteration. -/
def appendStep (opts : SolverOptions) (env : ProblemEnv) (inp : IterInput)
    (s : LoopState) : StepResult × Nat :=
  let res := env.validate (extendedPlan env inp s)
  if res.valid then
    let resplan := (extendedPlan env inp s).map env.map_back
    if env.validate_original resplan then
      (.ret { status := .SOLVED_SATISFICING, plan := some resplan,
              engine_name := "YOLOPlanner" }, 1)
    else
      (.raised .assertionError, 1)
  else
    match res.log_messages with
    | [] => (.raised .indexError, 1)
    | m :: _ =>
      let plan2 := if containsGoals m.message then extendedPlan env inp s
                   else (extendedPlan env inp s).dropLast
      match opts.max_tries with
      | some mt =>
        if s.counter + 1 ≥ mt then (.ret timeoutResult, 1)
        else (.next { plan := plan2, counter := s.counter + 1 }, 1)
      | none => (.next { plan := plan2, counter := s.counter + 1 }, 1)

/-- One iteration of the `while True` loop.  If the draw is below
`restart_probability` the plan is reset to empty and nothing else happens;
otherwise `random.choice` raises `IndexError` on an empty action list, else
the append branch runs. -/
def solveStep (opts : SolverOptions) (env : ProblemEnv) (inp : IterInput)
    (s : LoopState) : StepResult × Nat :=
  if inp.r < opts.restart_probability then
    (.next { plan := [], counter := s.counter }, 0)
  else if env.actions = [] then
    (.raised .indexError, 0)
  else
    appendStep opts env inp s

/-- Outcome of running the loop on a finite list of iteration inputs. -/
inductive RunResult where
  | returned (res : PlanGenerationResult)
  | raised (e : PyError)
  | outOfInputs (s : LoopState)
deriving DecidableEq

/-- Run the loop over a list of iteration inputs, accumulating the number of
grounded-problem validator calls. -/
def solveLoop (opts : SolverOptions) (env : ProblemEnv) :
    List IterInput → LoopState → RunResult × Nat
  | [], s => (.outOfInputs s, 0)
  | inp :: rest, s =>
    match solveStep opts env inp s with
    | (.next s', c) =>
      let t := solveLoop opts env rest s'
      (t.1, c + t.2)
    | (.ret res, c) => (.returned res, c)
    | (.raised e, c) => (.raised e, c)

/-- `_solve` enters the loop with an empty plan and `counter = 0`; there is
no validation of the options or the action list before the loop. -/
def solve (opts : SolverOptions) (env : ProblemEnv)
    (inputs : List IterInput) : RunResult × Nat :=
  solveLoop opts env inputs { plan := [], counter := 0 }

/-! Concrete environments used as witnesses and counterexamples. -/

/-- A validator that always reports an applicability failure. -/
def oracleNoGoals : List GroundedAction → ValidationResult :=
  fun _ => { valid := false,
             log_messages := [{ message := "unsatisfied precondition" }] }

/-- A one-action pool whose validator always reports applicability failure. -/
def envA : ProblemEnv :=
  { actions := [0], validate := oracleNoGoals,
    map_back := fun a => a, validate_original := fun _ => true }

/-- An empty action pool. -/
def envEmpty : ProblemEnv :=
  { actions := [], validate := oracleNoGoals,
    map_back := fun a => a, validate_original := fun _ => true }

/-- Options with restart probability one half and no try bound. -/
def optsHalf : SolverOptions :=
  { max_tries := none, restart_probability := mkRat 1 2 }

/-- Options with restart probability zero and no try bound. -/
def opts0 : SolverOptions :=
  { max_tries := none, restart_probability := 0 }

/-- Options with restart probability zero and a zero try budget. -/
def optsZeroTries : SolverOptions :=
  { max_tries := some 0, restart_probability := 0 }

/-! Branch lemmas: a complete case analysis of one loop iteration. -/

/-- The pop of the backtrack branch removes exactly the appended action. -/
theorem extendedPlan_dropLast (env : ProblemEnv) (inp : IterInput)
    (s : LoopState) : (extendedPlan env inp s).dropLast = s.plan := by
  simp [extendedPlan]

/-- Complete case analysis of `solveStep`: every iteration falls in exactly
one of the seven syntactic branches of the loop body. -/
theorem solveStep_cases (opts : SolverOptions) (env : ProblemEnv)
    (inp : IterInput) (s : LoopState) :
    (inp.r < opts.restart_probability ∧
      solveStep opts env inp s = (.next { plan := [], counter := s.counter }, 0)) ∨
    (¬ inp.r < opts.restart_probability ∧ env.actions = [] ∧
      solveStep opts env inp s = (.raised .indexError, 0)) ∨
    (¬ inp.r < opts.restart_probability ∧ env.actions ≠ [] ∧
      (env.validate (extendedPlan env inp s)).valid = true ∧
      env.validate_original ((extendedPlan env inp s).map env.map_back) = true ∧
      solveStep opts env inp s =
        (.ret { status := .SOLVED_SATISFICING,
                plan := some ((extendedPlan env inp s).map env.map_back),
                engine_name := "YOLOPlanner" }, 1)) ∨
    (¬ inp.r < opts.restart_probability ∧ env.actions ≠ [] ∧
      (env.validate (extendedPlan env inp s)).valid = true ∧
      env.validate_original ((extendedPlan env inp s).map env.map_back) = false ∧
      solveStep opts env inp s = (.raised .assertionError, 1)) ∨
    (¬ inp.r < opts.restart_probability ∧ env.actions ≠ [] ∧
      (env.validate (extendedPlan env inp s)).valid = false ∧
      (env.validate (extendedPlan env inp s)).log_messages = [] ∧
      solveStep opts env inp s = (.raised .indexError, 1)) ∨
    (∃ m ms mt, ¬ inp.r < opts.restart_probability ∧ env.actions ≠ [] ∧
      (env.validate (extendedPlan env inp s)).valid = false ∧
      (env.validate (extendedPlan env inp s)).log_messages = m :: ms ∧
      opts.max_tries = some mt ∧ s.counter + 1 ≥ mt ∧
      solveStep opts env inp s = (.ret timeoutResult, 1)) ∨
    (∃ m ms, ¬ inp.r < opts.restart_probability ∧ env.actions ≠ [] ∧
      (env.validate (extendedPlan env inp s)).valid = false ∧
      (env.validate (extendedPlan env inp s)).log_messages = m :: ms ∧
      (opts.max_tries = none ∨ ∃ mt, opts.max_tries = some mt ∧ s.counter + 1 < mt) ∧
      solveStep opts env inp s =
        (.next { plan := if containsGoals m.message then extendedPlan env inp s
                         else s.plan,
                 counter := s.counter + 1 }, 1)) := by
  by_cases hr : inp.r < opts.restart_probability
  · exact Or.inl ⟨hr, by simp [solveStep, hr]⟩
  · by_cases hp : env.actions = []
    · exact Or.inr (Or.inl ⟨hr, hp, by simp [solveStep, hr, hp]⟩)
    · have hstep : solveStep opts env inp s = appendStep opts env inp s := by
        simp [solveStep, hr, hp]
      by_cases hv : (env.validate (extendedPlan env inp s)).valid
      · by_cases ha : env.validate_original ((extendedPlan env inp s).map env.map_back)
        · refine Or.inr (Or.inr (Or.inl ⟨hr, hp, hv, ha, ?_⟩))
          rw [hstep]; simp [appendStep, hv, ha]
        · refine Or.inr (Or.inr (Or.inr (Or.inl
            ⟨hr, hp, hv, Bool.not_eq_true _ ▸ ha, ?_⟩)))
          rw [hstep]; simp [appendStep, hv, ha]
      · cases hlm : (env.validate (extendedPlan env inp s)).log_messages with
        | nil =>
          refine Or.inr (Or.inr (Or.inr (Or.inr (Or.inl
            ⟨hr, hp, Bool.not_eq_true _ ▸ hv, rfl, ?_⟩))))
          rw [hstep]; simp [appendStep, hv, hlm]
        | cons m ms =>
          cases hmt : opts.max_tries with
          | none =>
            refine Or.inr (Or.inr (Or.inr (Or.inr (Or.inr (Or.inr
              ⟨m, ms, hr, hp, Bool.not_eq_true _ ▸ hv, rfl, Or.inl rfl, ?_⟩)))))
            rw [hstep]
            simp [appendStep, hv, hlm, hmt, extendedPlan_dropLast]
          | some mt =>
            by_cases hge : s.counter + 1 ≥ mt
            · refine Or.inr (Or.inr (Or.inr (Or.inr (Or.inr (Or.inl
                ⟨m, ms, mt, hr, hp, Bool.not_eq_true _ ▸ hv, rfl, rfl, hge, ?_⟩)))))
              rw [hstep]; simp [appendStep, hv, hlm, hmt, hge]
            · refine Or.inr (Or.inr (Or.inr (Or.inr (Or.inr (Or.inr
                ⟨m, ms, hr, hp, Bool.not_eq_true _ ▸ hv, rfl,
                 Or.inr ⟨mt, rfl, by omega⟩, ?_⟩)))))
              rw [hstep]
              simp [appendStep, hv, hlm, hmt, hge, extendedPlan_dropLast]

/-- Options with restart probability 2, outside the documented range. -/
def optsTwo : SolverOptions :=
  { max_tries := none, restart_probability := 2 }

/-- C1 (counterexample): the claim says the try counter is incremented
exactly once per extension attempt including restart iterations.  On a
restart iteration (`r = 0 < 1/2`) from a state with counter 3, the code
continues with counter still 3, not 4: the restart branch skips
`counter += 1` entirely. -/
theorem c1_counterexample :
    solveStep optsHalf envA ⟨0, 0⟩ ⟨[0], 3⟩ =
      (.next { plan := [], counter := 3 }, 0) ∧
    (solveStep optsHalf envA ⟨0, 0⟩ ⟨[0], 3⟩).1 ≠
      .next { plan := [], counter := 4 } := by
  decide

/-- C1 (amended): the try counter is incremented exactly once per append
(non-restart) extension attempt; on a restart iteration the counter is left
unchanged — a restart is a free action not charged against the budget. -/
theorem c1_theorem (opts : SolverOptions) (env : ProblemEnv) (inp : IterInput)
    (s : LoopState) :
    (inp.r < opts.restart_probability →
      (solveStep opts env inp s).1 = .next { plan := [], counter := s.counter }) ∧
    (∀ s', ¬ inp.r < opts.restart_probability →
      (solveStep opts env inp s).1 = .next s' → s'.counter = s.counter + 1) := by
  constructor
  · intro hr
    simp [solveStep, hr]
  · intro s' hr hnext
    rcases solveStep_cases opts env inp s with
      ⟨hr', _⟩ | ⟨_, _, heq⟩ | ⟨_, _, _, _, heq⟩ | ⟨_, _, _, _, heq⟩ |
      ⟨_, _, _, _, heq⟩ | ⟨m, ms, mt, _, _, _, _, _, _, heq⟩ |
      ⟨m, ms, _, _, _, _, _, heq⟩
    · exact absurd hr' hr
    · rw [heq] at hnext; simp at hnext
    · rw [heq] at hnext; simp at hnext
    · rw [heq] at hnext; simp at hnext
    · rw [heq] at hnext; simp at hnext
    · rw [heq] at hnext; simp at hnext
    · rw [heq] at hnext; simp at hnext
      rw [← hnext]

/-- C1 (witness): a restart iteration from counter 3 continues with
counter 3. -/
theorem c1_witness :
    (solveStep optsHalf envA ⟨0, 0⟩ ⟨[0], 3⟩).1 =
      .next { plan := [], counter := 3 } :=
  (c1_theorem optsHalf envA ⟨0, 0⟩ ⟨[0], 3⟩).1 (by decide)

/-- C2 (counterexample): the claim says an empty Action Pool or a restart
probability outside [0,1) is rejected with a `ConfigurationError` before the
loop starts.  In fact no validation happens: with an empty pool the loop
starts and completes a restart iteration with no error of any kind, and with
restart probability 2 the loop likewise runs normally. -/
theorem c2_counterexample :
    solve optsHalf envEmpty [⟨0, 0⟩] =
      (.outOfInputs { plan := [], counter := 0 }, 0) ∧
    solve optsTwo envA [⟨0, 0⟩] =
      (.outOfInputs { plan := [], counter := 0 }, 0) := by
  decide

/-- C2 (amended): the solver performs no configuration validation at all:
`restart_probability` outside [0,1) is accepted silently, and an empty
Action Pool only manifests inside the loop, as an `IndexError` raised by
`random.choice` at the first non-restart iteration. -/
theorem c2_theorem (opts : SolverOptions) (env : ProblemEnv) (inp : IterInput)
    (s : LoopState) (hr : ¬ inp.r < opts.restart_probability)
    (hp : env.actions = []) :
    solveStep opts env inp s = (.raised .indexError, 0) := by
  simp [solveStep, hr, hp]

/-- C2 (witness): with an empty pool and no restart draw, the first
iteration raises `IndexError`. -/
theorem c2_witness :
    solveStep opts0 envEmpty ⟨0, 0⟩ ⟨[], 0⟩ = (.raised .indexError, 0) :=
  c2_theorem opts0 envEmpty ⟨0, 0⟩ ⟨[], 0⟩ (by decide) (by decide)

/-- C3 (counterexample): the claim says that on a restart iteration the
emptied candidate is submitted to the Oracle in the same iteration.  A
restart iteration makes zero validator calls: the code's restart branch
resets the plan and immediately re-enters the loop. -/
theorem c3_counterexample :
    solveStep optsHalf envA ⟨0, 0⟩ ⟨[0, 0], 5⟩ =
      (.next { plan := [], counter := 5 }, 0) ∧
    (solveStep optsHalf envA ⟨0, 0⟩ ⟨[0, 0], 5⟩).2 ≠ 1 := by
  decide

/-- C3 (amended): on a restart iteration the candidate is set to empty and
the loop moves on to the next iteration without consulting the Oracle; the
Oracle is invoked only on append iterations. -/
theorem c3_theorem (opts : SolverOptions) (env : ProblemEnv) (inp : IterInput)
    (s : LoopState) (hr : inp.r < opts.restart_probability) :
    solveStep opts env inp s = (.next { plan := [], counter := s.counter }, 0) := by
  simp [solveStep, hr]

/-- C3 (witness): a concrete restart iteration empties the two-action
candidate and makes no validator call. -/
theorem c3_witness :
    solveStep optsHalf envA ⟨0, 0⟩ ⟨[0, 0], 7⟩ =
      (.next { plan := [], counter := 7 }, 0) :=
  c3_theorem optsHalf envA ⟨0, 0⟩ ⟨[0, 0], 7⟩ (by decide)

/-- C4: the `TIMEOUT` result is returned exactly when `max_tries` is set and
the incremented counter has reached it, on an iteration whose verdict was
not `Valid`; when `max_tries` is `None` no run ever returns a `TIMEOUT`
result, however long it goes on. -/
theorem c4_theorem (opts : SolverOptions) (env : ProblemEnv) :
    (opts.max_tries = none → ∀ inputs s res,
      (solveLoop opts env inputs s).1 = .returned res → res.status ≠ .TIMEOUT) ∧
    (∀ inp s res, (solveStep opts env inp s).1 = .ret res →
      res.status = .TIMEOUT →
      res = timeoutResult ∧ ∃ mt, opts.max_tries = some mt ∧
        s.counter + 1 ≥ mt ∧
        (env.validate (extendedPlan env inp s)).valid = false) ∧
    (∀ inp s m ms mt, ¬ inp.r < opts.restart_probability → env.actions ≠ [] →
      (env.validate (extendedPlan env inp s)).valid = false →
      (env.validate (extendedPlan env inp s)).log_messages = m :: ms →
      opts.max_tries = some mt → s.counter + 1 ≥ mt →
      (solveStep opts env inp s).1 = .ret timeoutResult) := by
  have hstepinv : ∀ inp s res, (solveStep opts env inp s).1 = .ret res →
      res.status = .TIMEOUT →
      res = timeoutResult ∧ ∃ mt, opts.max_tries = some mt ∧
        s.counter + 1 ≥ mt ∧
        (env.validate (extendedPlan env inp s)).valid = false := by
    intro inp s res h hts
    rcases solveStep_cases opts env inp s with
      ⟨_, heq⟩ | ⟨_, _, heq⟩ | ⟨_, _, hv, _, heq⟩ | ⟨_, _, _, _, heq⟩ |
      ⟨_, _, _, _, heq⟩ | ⟨m, ms, mt, _, _, hv, _, hmt, hge, heq⟩ |
      ⟨m, ms, _, _, _, _, _, heq⟩
    · rw [heq] at h; simp at h
    · rw [heq] at h; simp at h
    · rw [heq] at h; simp at h
      rw [← h] at hts; simp at hts
    · rw [heq] at h; simp at h
    · rw [heq] at h; simp at h
    · rw [heq] at h; simp at h
      exact ⟨h.symm, mt, hmt, hge, hv⟩
    · rw [heq] at h; simp at h
  refine ⟨?_, hstepinv, ?_⟩
  · intro hmt inputs
    induction inputs with
    | nil => intro s res h; simp [solveLoop] at h
    | cons inp rest ih =>
      intro s res h
      simp only [solveLoop] at h
      rcases hstep : solveStep opts env inp s with ⟨sr, c⟩
      rw [hstep] at h
      cases sr with
      | next s' => exact ih s' res h
      | ret r =>
        simp at h
        intro hts
        rcases hstepinv inp s r (by rw [hstep]) (by rw [h]; exact hts) with
          ⟨_, mt, hmt', _⟩
        rw [hmt] at hmt'; cases hmt'
      | raised e => simp at h
  · intro inp s m ms mt hr hp hv hm hmt hge
    rcases solveStep_cases opts env inp s with
      ⟨hr', _⟩ | ⟨_, hp', _⟩ | ⟨_, _, hv', _, _⟩ | ⟨_, _, hv', _, _⟩ |
      ⟨_, _, _, hm', _⟩ | ⟨m', ms', mt', _, _, _, _, _, _, heq⟩ |
      ⟨m', ms', _, _, _, _, hbound, heq⟩
    · exact absurd hr' hr
    · exact absurd hp' hp
    · rw [hv'] at hv; cases hv
    · rw [hv'] at hv; cases hv
    · rw [hm'] at hm; cases hm
    · rw [heq]
    · rcases hbound with hnone | ⟨mt'', hmt'', hlt⟩
      · rw [hmt] at hnone; cases hnone
      · rw [hmt] at hmt''
        injection hmt'' with hmm
        omega

/-- C4 (witness): with a one-action pool, an always-failing validator and
`max_tries = 0`, the first append iteration returns the `TIMEOUT` result. -/
theorem c4_witness :
    (solveStep optsZeroTries envA ⟨0, 0⟩ ⟨[], 0⟩).1 = .ret timeoutResult :=
  (c4_theorem optsZeroTries envA).2.2 ⟨0, 0⟩ ⟨[], 0⟩
    ⟨"unsatisfied precondition"⟩ [] 0 (by decide) (by decide) (by decide)
    (by decide) rfl (by decide)

/-- C5: the iteration reacts to the verdict on the extended candidate as the
spec says: a `Valid` verdict (whose re-validation passes) returns the
solved result with that candidate, lifted, in the same iteration; an
applicability failure (first log message without "Goals") pops exactly the
action just appended, leaving the pre-append plan; a goal-not-satisfied
verdict (message containing "Goals") leaves the extended candidate intact.
In particular the candidate never retains a trailing action flagged as an
applicability failure. -/
theorem c5_theorem (opts : SolverOptions) (env : ProblemEnv) (inp : IterInput)
    (s : LoopState) (hr : ¬ inp.r < opts.restart_probability)
    (hp : env.actions ≠ []) :
    ((env.validate (extendedPlan env inp s)).valid = true →
      env.validate_original ((extendedPlan env inp s).map env.map_back) = true →
      (solveStep opts env inp s).1 =
        .ret { status := .SOLVED_SATISFICING,
               plan := some ((extendedPlan env inp s).map env.map_back),
               engine_name := "YOLOPlanner" }) ∧
    (∀ m ms, (env.validate (extendedPlan env inp s)).valid = false →
      (env.validate (extendedPlan env inp s)).log_messages = m :: ms →
      containsGoals m.message = false →
      ∀ s', (solveStep opts env inp s).1 = .next s' → s'.plan = s.plan) ∧
    (∀ m ms, (env.validate (extendedPlan env inp s)).valid = false →
      (env.validate (extendedPlan env inp s)).log_messages = m :: ms →
      containsGoals m.message = true →
      ∀ s', (solveStep opts env inp s).1 = .next s' →
        s'.plan = extendedPlan env inp s) := by
  refine ⟨?_, ?_, ?_⟩
  · intro hv ha
    rcases solveStep_cases opts env inp s with
      ⟨hr', _⟩ | ⟨_, hp', _⟩ | ⟨_, _, _, _, heq⟩ | ⟨_, _, _, ha', _⟩ |
      ⟨_, _, hv', _, _⟩ | ⟨_, _, _, _, _, hv', _, _, _, _⟩ |
      ⟨_, _, _, _, hv', _, _, _⟩
    · exact absurd hr' hr
    · exact absurd hp' hp
    · rw [heq]
    · rw [ha'] at ha; cases ha
    · rw [hv'] at hv; cases hv
    · rw [hv'] at hv; cases hv
    · rw [hv'] at hv; cases hv
  · intro m ms hv hm hg s' hnext
    rcases solveStep_cases opts env inp s with
      ⟨hr', _⟩ | ⟨_, hp', _⟩ | ⟨_, _, hv', _, _⟩ | ⟨_, _, hv', _, _⟩ |
      ⟨_, _, _, hm', _⟩ | ⟨_, _, _, _, _, _, _, _, _, heq⟩ |
      ⟨m', ms', _, _, _, hm', _, heq⟩
    · exact absurd hr' hr
    · exact absurd hp' hp
    · rw [hv'] at hv; cases hv
    · rw [hv'] at hv; cases hv
    · rw [hm'] at hm; cases hm
    · rw [heq] at hnext; simp at hnext
    · rw [hm'] at hm
      injection hm with hmm _
      rw [heq] at hnext; simp at hnext
      rw [← hnext, hmm, hg]
      simp
  · intro m ms hv hm hg s' hnext
    rcases solveStep_cases opts env inp s with
      ⟨hr', _⟩ | ⟨_, hp', _⟩ | ⟨_, _, hv', _, _⟩ | ⟨_, _, hv', _, _⟩ |
      ⟨_, _, _, hm', _⟩ | ⟨_, _, _, _, _, _, _, _, _, heq⟩ |
      ⟨m', ms', _, _, _, hm', _, heq⟩
    · exact absurd hr' hr
    · exact absurd hp' hp
    · rw [hv'] at hv; cases hv
    · rw [hv'] at hv; cases hv
    · rw [hm'] at hm; cases hm
    · rw [heq] at hnext; simp at hnext
    · rw [hm'] at hm
      injection hm with hmm _
      rw [heq] at hnext; simp at hnext
      rw [← hnext, hmm, hg]
      simp

/-- C5 (witness): on an applicability failure the appended action is popped,
restoring the pre-append candidate `[5]`. -/
theorem c5_witness :
    (solveStep opts0 envA ⟨0, 0⟩ ⟨[5], 0⟩).1 =
      .next { plan := [5], counter := 1 } ∧
    ∀ s', (solveStep opts0 envA ⟨0, 0⟩ ⟨[5], 0⟩).1 = .next s' →
      s'.plan = [5] :=
  ⟨by decide,
   fun s' h =>
     (c5_theorem opts0 envA ⟨0, 0⟩ ⟨[5], 0⟩ (by decide) (by decide)).2.1
       ⟨"unsatisfied precondition"⟩ [] (by decide) (by decide) (by decide)
       s' h⟩

/-- A validator that certifies every candidate as valid. -/
def oracleValid : List GroundedAction → ValidationResult :=
  fun _ => { valid := true, log_messages := [] }

/-- An environment in which the grounded validation succeeds but the
re-validation of the lifted plan against the original problem fails. -/
def envBad : ProblemEnv :=
  { actions := [0], validate := oracleValid,
    map_back := fun a => a, validate_original := fun _ => false }

/-- C6: on a `Valid` verdict the candidate is lifted (`map_back` applied to
every action) and re-validated against the original problem before being
returned; when this re-validation fails the iteration raises
`AssertionError` — an internal, fatal condition — and neither returns a
solved result nor a `TIMEOUT` result; when it passes, the solved result
carries exactly the lifted plan. -/
theorem c6_theorem (opts : SolverOptions) (env : ProblemEnv) (inp : IterInput)
    (s : LoopState) (hr : ¬ inp.r < opts.restart_probability)
    (hp : env.actions ≠ [])
    (hv : (env.validate (extendedPlan env inp s)).valid = true) :
    (env.validate_original ((extendedPlan env inp s).map env.map_back) = false →
      solveStep opts env inp s = (.raised .assertionError, 1)) ∧
    (env.validate_original ((extendedPlan env inp s).map env.map_back) = true →
      solveStep opts env inp s =
        (.ret { status := .SOLVED_SATISFICING,
                plan := some ((extendedPlan env inp s).map env.map_back),
                engine_name := "YOLOPlanner" }, 1)) := by
  rcases solveStep_cases opts env inp s with
    ⟨hr', _⟩ | ⟨_, hp', _⟩ | ⟨_, _, _, ha', heq⟩ | ⟨_, _, _, ha', heq⟩ |
    ⟨_, _, hv', _, _⟩ | ⟨_, _, _, _, _, hv', _, _, _, _⟩ |
    ⟨_, _, _, _, hv', _, _, _⟩
  · exact absurd hr' hr
  · exact absurd hp' hp
  · refine ⟨fun ha => ?_, fun _ => heq⟩
    rw [ha'] at ha; cases ha
  · refine ⟨fun _ => heq, fun ha => ?_⟩
    rw [ha'] at ha; cases ha
  · rw [hv'] at hv; cases hv
  · rw [hv'] at hv; cases hv
  · rw [hv'] at hv; cases hv

/-- C6 (witness): in `envBad` the sanity re-validation fails and the
iteration raises `AssertionError`. -/
theorem c6_witness :
    solveStep opts0 envBad ⟨0, 0⟩ ⟨[], 0⟩ = (.raised .assertionError, 1) :=
  (c6_theorem opts0 envBad ⟨0, 0⟩ ⟨[], 0⟩ (by decide) (by decide)
    (by decide)).1 (by decide)

/-- C7 (counterexample): the claim says that with `max_tries = 0` the search
returns `Exhausted` with zero Oracle invocations.  On a one-action pool with
an always-failing validator and `max_tries = 0`, the run does return the
`TIMEOUT` result — but only after one full append iteration, so the Oracle
is invoked once, not zero times. -/
theorem c7_counterexample :
    (solve optsZeroTries envA [⟨0, 0⟩]).1 = .returned timeoutResult ∧
    (solve optsZeroTries envA [⟨0, 0⟩]).2 = 1 := by
  decide

/-- C7 (amended): with `max_tries = 0` and a non-empty pool, the first
non-restart iteration performs one full extension attempt — including
exactly one Oracle invocation — and, when the verdict is not `Valid` (and
carries a log message), returns the `TIMEOUT` result: the budget check only
runs after an attempt, never before. -/
theorem c7_theorem (opts : SolverOptions) (env : ProblemEnv) (inp : IterInput)
    (s : LoopState) (hmt : opts.max_tries = some 0)
    (hr : ¬ inp.r < opts.restart_probability) (hp : env.actions ≠ [])
    (hv : (env.validate (extendedPlan env inp s)).valid = false)
    (hm : (env.validate (extendedPlan env inp s)).log_messages ≠ []) :
    solveStep opts env inp s = (.ret timeoutResult, 1) := by
  rcases solveStep_cases opts env inp s with
    ⟨hr', _⟩ | ⟨_, hp', _⟩ | ⟨_, _, hv', _, _⟩ | ⟨_, _, hv', _, _⟩ |
    ⟨_, _, _, hm', _⟩ | ⟨_, _, _, _, _, _, _, _, _, heq⟩ |
    ⟨m', ms', _, _, _, _, hbound, _⟩
  · exact absurd hr' hr
  · exact absurd hp' hp
  · rw [hv'] at hv; cases hv
  · rw [hv'] at hv; cases hv
  · exact absurd hm' hm
  · exact heq
  · rcases hbound with hnone | ⟨mt, hmt', hlt⟩
    · rw [hmt] at hnone; cases hnone
    · rw [hmt] at hmt'
      injection hmt' with hmm
      omega

/-- C7 (witness): the first append iteration under a zero try budget makes
one validator call and returns the `TIMEOUT` result. -/
theorem c7_witness :
    solveStep optsZeroTries envA ⟨0, 0⟩ ⟨[], 0⟩ = (.ret timeoutResult, 1) :=
  c7_theorem optsZeroTries envA ⟨0, 0⟩ ⟨[], 0⟩ rfl (by decide) (by decide)
    (by decide) (by decide)

/-- A validator that rejects every candidate and gives no log messages. -/
def oracleSilent : List GroundedAction → ValidationResult :=
  fun _ => { valid := false, log_messages := [] }

/-- A one-action pool whose validator rejects without any diagnostics. -/
def envSilent : ProblemEnv :=
  { actions := [7], validate := oracleSilent,
    map_back := fun a => a, validate_original := fun _ => true }

/-- C8 (counterexample): the claim says a failure verdict whose
classification is unavailable is treated as an applicability failure and
triggers a backtrack.  When the invalid verdict carries no log messages at
all, the code's `res.log_messages[0]` raises `IndexError` instead of
backtracking: the iteration aborts, it does not continue with a shrunk
candidate. -/
theorem c8_counterexample :
    solveStep opts0 envSilent ⟨0, 0⟩ ⟨[], 0⟩ = (.raised .indexError, 1) := by
  decide

/-- C8 (amended): an invalid verdict whose first log message does not
contain the substring "Goals" — however ambiguous the text — takes the
backtrack branch, removing exactly the appended action; but an invalid
verdict with no log messages at all raises `IndexError` rather than
backtracking. -/
theorem c8_theorem (opts : SolverOptions) (env : ProblemEnv) (inp : IterInput)
    (s : LoopState) (hr : ¬ inp.r < opts.restart_probability)
    (hp : env.actions ≠ [])
    (hv : (env.validate (extendedPlan env inp s)).valid = false) :
    ((env.validate (extendedPlan env inp s)).log_messages = [] →
      solveStep opts env inp s = (.raised .indexError, 1)) ∧
    (∀ m ms, (env.validate (extendedPlan env inp s)).log_messages = m :: ms →
      containsGoals m.message = false →
      ∀ s', (solveStep opts env inp s).1 = .next s' → s'.plan = s.plan) := by
  constructor
  · intro hm
    rcases solveStep_cases opts env inp s with
      ⟨hr', _⟩ | ⟨_, hp', _⟩ | ⟨_, _, hv', _, _⟩ | ⟨_, _, hv', _, _⟩ |
      ⟨_, _, _, _, heq⟩ | ⟨_, _, _, _, _, _, hm', _, _, _⟩ |
      ⟨_, _, _, _, _, hm', _, _⟩
    · exact absurd hr' hr
    · exact absurd hp' hp
    · rw [hv'] at hv; cases hv
    · rw [hv'] at hv; cases hv
    · exact heq
    · rw [hm] at hm'; cases hm'
    · rw [hm] at hm'; cases hm'
  · intro m ms hm hg s' hnext
    rcases solveStep_cases opts env inp s with
      ⟨hr', _⟩ | ⟨_, hp', _⟩ | ⟨_, _, hv', _, _⟩ | ⟨_, _, hv', _, _⟩ |
      ⟨_, _, _, hm', _⟩ | ⟨_, _, _, _, _, _, _, _, _, heq⟩ |
      ⟨m', ms', _, _, _, hm', _, heq⟩
    · exact absurd hr' hr
    · exact absurd hp' hp
    · rw [hv'] at hv; cases hv
    · rw [hv'] at hv; cases hv
    · rw [hm'] at hm; cases hm
    · rw [heq] at hnext; simp at hnext
    · rw [hm'] at hm
      injection hm with hmm _
      rw [heq] at hnext; simp at hnext
      rw [← hnext, hmm, hg]
      simp

/-- C8 (witness): an invalid verdict with no log messages raises
`IndexError` in the first iteration. -/
theorem c8_witness :
    solveStep opts0 envSilent ⟨0, 5⟩ ⟨[], 0⟩ = (.raised .indexError, 1) :=
  (c8_theorem opts0 envSilent ⟨0, 5⟩ ⟨[], 0⟩ (by decide) (by decide)
    (by decide)).1 (by decide)

/-- C9: with restart probability 0 (and the draw of `random.random()` being
non-negative, as it always is), every continuing iteration either keeps the
candidate exactly as it was (single-element append undone by the backtrack
pop) or extends it by exactly the one appended action; consequently the
length never decreases and never changes by more than one. -/
theorem c9_theorem (opts : SolverOptions) (env : ProblemEnv) (inp : IterInput)
    (s : LoopState) (hprob : opts.restart_probability = 0)
    (hr0 : 0 ≤ inp.r) :
    ∀ s', (solveStep opts env inp s).1 = .next s' →
      (s'.plan = s.plan ∨ s'.plan = extendedPlan env inp s) ∧
      s.plan.length ≤ s'.plan.length ∧
      s'.plan.length ≤ s.plan.length + 1 := by
  intro s' hnext
  have hr : ¬ inp.r < opts.restart_probability := by
    rw [hprob]; exact not_lt.2 hr0
  rcases solveStep_cases opts env inp s with
    ⟨hr', _⟩ | ⟨_, _, heq⟩ | ⟨_, _, _, _, heq⟩ | ⟨_, _, _, _, heq⟩ |
    ⟨_, _, _, _, heq⟩ | ⟨_, _, _, _, _, _, _, _, _, heq⟩ |
    ⟨m, ms, _, _, _, _, _, heq⟩
  · exact absurd hr' hr
  · rw [heq] at hnext; simp at hnext
  · rw [heq] at hnext; simp at hnext
  · rw [heq] at hnext; simp at hnext
  · rw [heq] at hnext; simp at hnext
  · rw [heq] at hnext; simp at hnext
  · rw [heq] at hnext; simp at hnext
    rw [← hnext]
    by_cases hg : containsGoals m.message
    · simp [hg, extendedPlan]
    · simp [hg, extendedPlan]

/-- C9 (witness): a backtracked iteration keeps the (empty) candidate and
its length. -/
theorem c9_witness :
    ([] : List GroundedAction) = ([] : List GroundedAction) ∨
      ([] : List GroundedAction) = extendedPlan envA ⟨0, 0⟩ ⟨[], 0⟩ :=
  ((c9_theorem opts0 envA ⟨0, 0⟩ ⟨[], 0⟩ rfl (by decide))
    { plan := [], counter := 1 } (by decide)).1

/-- Any result a loop run returns was produced by `return` in some single
iteration. -/
theorem solveLoop_returned (opts : SolverOptions) (env : ProblemEnv) :
    ∀ inputs s res, (solveLoop opts env inputs s).1 = .returned res →
      ∃ inp s', (solveStep opts env inp s').1 = .ret res := by
  intro inputs
  induction inputs with
  | nil => intro s res h; simp [solveLoop] at h
  | cons inp rest ih =>
    intro s res h
    simp only [solveLoop] at h
    rcases hstep : solveStep opts env inp s with ⟨sr, c⟩
    rw [hstep] at h
    cases sr with
    | next s' => exact ih s' res h
    | ret r =>
      simp at h
      exact ⟨inp, s, by rw [hstep, h]⟩
    | raised e => simp at h

/-- A returned result is either the `TIMEOUT` result (which carries no
plan) or a solved result. -/
theorem solveStep_ret_shape (opts : SolverOptions) (env : ProblemEnv)
    (inp : IterInput) (s : LoopState) (res : PlanGenerationResult)
    (h : (solveStep opts env inp s).1 = .ret res) :
    res = timeoutResult ∨ res.status = .SOLVED_SATISFICING := by
  rcases solveStep_cases opts env inp s with
    ⟨_, heq⟩ | ⟨_, _, heq⟩ | ⟨_, _, _, _, heq⟩ | ⟨_, _, _, _, heq⟩ |
    ⟨_, _, _, _, heq⟩ | ⟨_, _, _, _, _, _, _, _, _, heq⟩ |
    ⟨_, _, _, _, _, _, _, heq⟩
  · rw [heq] at h; simp at h
  · rw [heq] at h; simp at h
  · rw [heq] at h; simp at h
    rw [← h]
    exact Or.inr rfl
  · rw [heq] at h; simp at h
  · rw [heq] at h; simp at h
  · rw [heq] at h; simp at h
    exact Or.inl h.symm
  · rw [heq] at h; simp at h

/-- C10: whenever a run returns a result whose status is `TIMEOUT`, that
result is exactly the `TIMEOUT` result built at line 100 of the source,
whose plan field is `None`: the partial candidate is never exposed on
exhaustion. -/
theorem c10_theorem (opts : SolverOptions) (env : ProblemEnv)
    (inputs : List IterInput) (res : PlanGenerationResult)
    (h : (solve opts env inputs).1 = .returned res)
    (hts : res.status = .TIMEOUT) :
    res = timeoutResult ∧ res.plan = none := by
  rcases solveLoop_returned opts env inputs
      { plan := [], counter := 0 } res h with ⟨inp, s', hstep⟩
  rcases solveStep_ret_shape opts env inp s' res hstep with hto | hsv
  · exact ⟨hto, by rw [hto]; rfl⟩
  · rw [hts] at hsv; cases hsv

/-- C10 (witness): the exhausted run under a zero try budget returns the
plan-free `TIMEOUT` result. -/
theorem c10_witness : timeoutResult = timeoutResult ∧
    timeoutResult.plan = none :=
  c10_theorem optsZeroTries envA [⟨0, 0⟩] timeoutResult (by decide) rfl

end YoloPlanner
